import Mathlib

/-!
Verification of the financial computation engine of `src/js/data-service.js`:
snapshot building, transfer merging, adjustment aggregation, month-over-month
comparison, performance and forecast arithmetic.

JavaScript numbers are modelled by `ℚ` (the claims under study are exact
algebraic identities and branch conditions); the one transcendental operation
(`Math.pow` with a fractional exponent in `calculateProjectedAnnual`) is
modelled by `Real.rpow`.  JavaScript objects used as string-keyed dictionaries
are modelled by association lists in insertion order, where assigning to an
existing key replaces its value in place and assigning a fresh key appends it,
exactly as JS object iteration order behaves.  A JS value that may be `null` /
`undefined` (a missing document, a missing `transfers` array, an unset
`originalVal`) is modelled by `Option`.
-/

namespace FinanceWeb

/-- JS string-keyed object: list of bindings in insertion order. -/
abbrev JsMap (α : Type) := List (String × α)

/-- JS property assignment `m[k] = v`: replace the existing binding in place,
or append a new one. -/
def JsMap.set {α : Type} (m : JsMap α) (k : String) (v : α) : JsMap α :=
  match m with
  | [] => [(k, v)]
  | (k₀, v₀) :: rest => if k₀ = k then (k, v) :: rest else (k₀, v₀) :: JsMap.set rest k v

/-- JS property read `m[k]` (first binding; bindings are unique when the map is
built from `{}` by `set`). -/
def JsMap.get {α : Type} (m : JsMap α) (k : String) : Option α :=
  match m with
  | [] => none
  | (k₀, v₀) :: rest => if k₀ = k then some v₀ else JsMap.get rest k

/-- Keys of a JS object in insertion order (`Object.keys`). -/
def JsMap.keys {α : Type} (m : JsMap α) : List String :=
  m.map (fun kv => kv.1)

/-- JS `new Set([...])` over strings: deduplicate keeping first occurrences. -/
def jsDedupAux (seen : List String) : List String → List String
  | [] => []
  | k :: rest =>
    if k ∈ seen then jsDedupAux seen rest else k :: jsDedupAux (k :: seen) rest

def jsDedup (ks : List String) : List String := jsDedupAux [] ks

/-- The regex replacement `.replace(/\s+/g, '_')`: each maximal run of
whitespace becomes a single underscore.  The flag records whether the previous
character was whitespace. -/
def collapseWsAux : Bool → List Char → List Char
  | _, [] => []
  | inWs, c :: rest =>
    if c.isWhitespace then
      if inWs then collapseWsAux true rest
      else '_' :: collapseWsAux true rest
    else c :: collapseWsAux false rest

/-- JS `.toLowerCase()`, character by character. -/
def jsToLower (s : String) : String := String.mk (s.data.map Char.toLower)

/-- JS `s.startsWith(p)`: `p`'s characters are a prefix of `s`'s. -/
def jsStartsWith (s p : String) : Bool := p.data.isPrefixOf s.data

/-- Model of `getAssetKey` (data-service.js:335): composite key
`categoryId_source_name`, lower-cased, whitespace runs collapsed to `_`. -/
def getAssetKey (categoryId source nm : String) : String :=
  String.mk (collapseWsAux false (jsToLower (categoryId ++ "_" ++ source ++ "_" ++ nm)).data)

/-- An asset entry of a portfolio document.  `originalVal`, `isVirtual`,
`adjustment` and `adjustmentHistory` are absent on raw persisted items and are
attached by the transfer merger; an absent `originalVal` is `none` (JS
`undefined`, distinguished from `0` by the `??` / `=== undefined` checks),
while the other three are read through falsy-defaulting (`|| 0`, `|| false`)
so their absence is identified with the default. -/
structure Item where
  name : String
  source : String
  val : ℚ
  originalVal : Option ℚ
  isVirtual : Bool
  adjustment : ℚ
  adjustmentHistory : List ℚ
deriving DecidableEq

/-- A raw persisted item `{name, source, val}`. -/
def Item.raw (nm source : String) (val : ℚ) : Item :=
  { name := nm, source := source, val := val, originalVal := none,
    isVirtual := false, adjustment := 0, adjustmentHistory := [] }

structure Category where
  id : String
  title : String
  color : String
  items : List Item
deriving DecidableEq

/-- Type of `portfolioData.portfolio`; the whole document is `Option PortfolioDoc`,
`none` standing for `null` or a document without a `portfolio` list. -/
abbrev PortfolioDoc := List Category

/-- A transfer record: one of the three variants. -/
inductive Transfer where
  | deposit (category source nm : String) (amount : ℚ)
  | withdraw (category source nm : String) (amount : ℚ)
  | move (from_category from_source from_name to_category to_source to_name : String)
      (amount : ℚ)
deriving DecidableEq

def Transfer.isMove : Transfer → Bool
  | .move _ _ _ _ _ _ _ => true
  | _ => false

/-- Asset record stored in a snapshot's maps (data-service.js:363). -/
structure AssetData where
  key : String
  categoryId : String
  source : String
  name : String
  val : ℚ
  originalVal : ℚ
  isVirtual : Bool
  adjustment : ℚ
deriving DecidableEq

/-- Per-category record of a snapshot (data-service.js:353). -/
structure CatData where
  id : String
  title : String
  color : String
  total : ℚ
  items : JsMap AssetData
deriving DecidableEq

/-- Normalized snapshot (data-service.js:343). -/
structure Snapshot where
  total : ℚ
  categories : JsMap CatData
  assetMap : JsMap AssetData
deriving DecidableEq

def emptySnapshot : Snapshot := { total := 0, categories := [], assetMap := [] }

/-- The asset record built for one item (data-service.js:363-372). -/
def mkAssetData (catId : String) (item : Item) : AssetData :=
  { key := getAssetKey catId item.source item.name
    categoryId := catId
    source := item.source
    name := item.name
    val := item.val
    originalVal := item.originalVal.getD item.val
    isVirtual := item.isVirtual
    adjustment := item.adjustment }

/-- The inner `cat.items.forEach` loop of `buildSnapshot`: grows the category
record and the flat asset map together (data-service.js:361-377). -/
def buildCatFold (catId : String) (items : List Item) (cd : CatData)
    (am : JsMap AssetData) : CatData × JsMap AssetData :=
  match items with
  | [] => (cd, am)
  | item :: rest =>
    let a := mkAssetData catId item
    buildCatFold catId rest
      { cd with items := cd.items.set a.key a, total := cd.total + item.val }
      (am.set a.key a)

/-- One iteration of the outer `portfolioData.portfolio.forEach` loop
(data-service.js:352-381). -/
def snapStep (snap : Snapshot) (cat : Category) : Snapshot :=
  let p := buildCatFold cat.id cat.items
    { id := cat.id, title := cat.title, color := cat.color, total := 0, items := [] }
    snap.assetMap
  { total := snap.total + p.1.total
    categories := snap.categories.set cat.id p.1
    assetMap := p.2 }

/-- Model of `buildSnapshot` (data-service.js:342-384). -/
def buildSnapshot (portfolioData : Option PortfolioDoc) : Snapshot :=
  match portfolioData with
  | none => emptySnapshot
  | some portfolio => portfolio.foldl snapStep emptySnapshot

/-- Model of `calculateTotalBalance` (data-service.js:968-975). -/
def calculateTotalBalance (portfolioData : Option PortfolioDoc) : ℚ :=
  match portfolioData with
  | none => 0
  | some portfolio =>
    portfolio.foldl
      (fun total category =>
        total + category.items.foldl (fun sum item => sum + item.val) 0) 0

/-- The tail of `applyTransferOperation` (data-service.js:1094-1110): record
`originalVal` on first touch, append to the history, apply the signed amount,
mark virtual, accumulate the net adjustment. -/
def applyToItem (item : Item) (amount : ℚ) : Item :=
  { item with
    originalVal := some (item.originalVal.getD item.val)
    adjustmentHistory := item.adjustmentHistory ++ [amount]
    val := item.val + amount
    isVirtual := true
    adjustment := item.adjustment + amount }

/-- Model of `category.items.find` by name and source, updating the first match in
place, or pushing a freshly created `{name, source, val: 0}` item
(data-service.js:1083-1092). -/
def updateItems (items : List Item) (source assetName : String) (amount : ℚ) :
    List Item :=
  match items with
  | [] => [applyToItem (Item.raw assetName source 0) amount]
  | i :: rest =>
    if i.name = assetName ∧ i.source = source then applyToItem i amount :: rest
    else i :: updateItems rest source assetName amount

/-- Model of `portfolioData.portfolio.find` by id, updating the first match in place, or
pushing a freshly created category with default gray color and the raw id as
title (data-service.js:1069-1080). -/
def updateCats (cats : List Category) (categoryId source assetName : String)
    (amount : ℚ) : List Category :=
  match cats with
  | [] =>
    [{ id := categoryId, title := categoryId, color := "#cbd5e0",
       items := updateItems [] source assetName amount }]
  | c :: rest =>
    if c.id = categoryId then
      { c with items := updateItems c.items source assetName amount } :: rest
    else c :: updateCats rest categoryId source assetName amount

/-- Model of `applyTransferOperation` (data-service.js:1067-1111), as the post-state of
the mutated `portfolioData.portfolio` list. -/
def applyTransferOperation (portfolio : PortfolioDoc)
    (categoryId source assetName : String) (amount : ℚ) : PortfolioDoc :=
  updateCats portfolio categoryId source assetName amount

/-- One `transfers.forEach` step of `mergeTransfers`
(data-service.js:1053-1062). -/
def mergeStep (pd : PortfolioDoc) (t : Transfer) : PortfolioDoc :=
  match t with
  | .deposit c s n a => applyTransferOperation pd c s n a
  | .withdraw c s n a => applyTransferOperation pd c s n (-a)
  | .move fc fs fn tc tsrc tn a =>
    applyTransferOperation (applyTransferOperation pd fc fs fn (-a)) tc tsrc tn a

/-- Model of `mergeTransfers` (data-service.js:1049-1065), as the post-state of the
document that was passed in (the JS function mutates its first argument in
place and returns that same object). -/
def mergeTransfers (portfolioData : Option PortfolioDoc)
    (transfers : Option (List Transfer)) : Option PortfolioDoc :=
  match transfers with
  | none => portfolioData
  | some ts =>
    if ts = [] then portfolioData
    else
      match portfolioData with
      | none => none
      | some portfolio => some (ts.foldl mergeStep portfolio)

/-- Per-asset adjustment record `{deposits, withdraws, net}`
(data-service.js:390). -/
structure Adjustment where
  deposits : ℚ
  withdraws : ℚ
  net : ℚ
deriving DecidableEq

/-- Step `adjustments[key].deposits += a; adjustments[key].net += a;` with the
create-if-absent guard (data-service.js:397-399). -/
def addDeposit (m : JsMap Adjustment) (key : String) (amount : ℚ) :
    JsMap Adjustment :=
  let cur := (m.get key).getD { deposits := 0, withdraws := 0, net := 0 }
  m.set key { cur with deposits := cur.deposits + amount, net := cur.net + amount }

/-- Step `adjustments[key].withdraws += a; adjustments[key].net -= a;` with the
create-if-absent guard (data-service.js:402-404). -/
def addWithdraw (m : JsMap Adjustment) (key : String) (amount : ℚ) :
    JsMap Adjustment :=
  let cur := (m.get key).getD { deposits := 0, withdraws := 0, net := 0 }
  m.set key { cur with withdraws := cur.withdraws + amount, net := cur.net - amount }

/-- One `transfers.forEach` step of `getAdjustmentsPerAsset`
(data-service.js:394-418). -/
def adjStep (adjs : JsMap Adjustment) (t : Transfer) : JsMap Adjustment :=
  match t with
  | .deposit c s n a => addDeposit adjs (getAssetKey c s n) a
  | .withdraw c s n a => addWithdraw adjs (getAssetKey c s n) a
  | .move fc fs fn tc tsrc tn a =>
    addDeposit (addWithdraw adjs (getAssetKey fc fs fn) a) (getAssetKey tc tsrc tn) a

/-- Model of `getAdjustmentsPerAsset` (data-service.js:389-421).  Returns the empty map
when either argument is `null`/`undefined` (the `!transfers || !portfolioData`
guard); the document is otherwise never read. -/
def getAdjustmentsPerAsset (transfers : Option (List Transfer))
    (portfolioData : Option PortfolioDoc) : JsMap Adjustment :=
  match transfers, portfolioData with
  | some ts, some _ => ts.foldl adjStep []
  | _, _ => []

/-- Comparison record of `calculateDelta` (data-service.js:440-446). -/
structure DeltaInfo where
  delta : ℚ
  percent : ℚ
  adjustedStart : ℚ
  previousVal : ℚ
  currentVal : ℚ
deriving DecidableEq

/-- Model of `calculateDelta` (data-service.js:426-447). -/
def calculateDelta (currentVal previousVal adjustment : ℚ) : DeltaInfo :=
  let adjustedStart := previousVal + adjustment
  let delta := currentVal - adjustedStart
  let percent :=
    if adjustedStart > 0 then delta / adjustedStart * 100
    else if currentVal > 0 ∧ adjustedStart = 0 then 0
    else 0
  { delta := delta, percent := percent, adjustedStart := adjustedStart,
    previousVal := previousVal, currentVal := currentVal }

/-- Asset status assigned by `compareSnapshots` (data-service.js:477-484). -/
inductive Status where
  | new
  | ghost
  | hidden
  | normal
deriving DecidableEq

/-- Per-asset entry of the comparison (data-service.js:486-492). -/
structure AssetComparison where
  delta : ℚ
  percent : ℚ
  adjustedStart : ℚ
  previousVal : ℚ
  currentVal : ℚ
  status : Status
  categoryId : Option String
  source : Option String
  name : Option String
deriving DecidableEq

structure Comparison where
  portfolio : DeltaInfo
  categories : JsMap DeltaInfo
  assets : JsMap AssetComparison
deriving DecidableEq

/-- The body of the per-asset `allAssetKeys.forEach` loop
(data-service.js:466-493). -/
def compareAsset (currentSnapshot : Snapshot) (previousSnapshot : Option Snapshot)
    (adjustments : JsMap Adjustment) (key : String) : AssetComparison :=
  let current := currentSnapshot.assetMap.get key
  let previous := previousSnapshot.bind (fun p => p.assetMap.get key)
  let adj := ((adjustments.get key).map Adjustment.net).getD 0
  let currentVal := (current.map AssetData.val).getD 0
  let previousVal := (previous.map AssetData.val).getD 0
  let deltaInfo := calculateDelta currentVal previousVal adj
  let status :=
    if currentVal > 0 ∧ previous = none then Status.new
    else if currentVal = 0 ∧ previousVal > 0 then Status.ghost
    else if currentVal = 0 ∧ previousVal = 0 then Status.hidden
    else Status.normal
  { delta := deltaInfo.delta, percent := deltaInfo.percent,
    adjustedStart := deltaInfo.adjustedStart, previousVal := deltaInfo.previousVal,
    currentVal := deltaInfo.currentVal, status := status,
    categoryId := (current.map AssetData.categoryId).orElse
      (fun _ => previous.map AssetData.categoryId)
    source := (current.map AssetData.source).orElse
      (fun _ => previous.map AssetData.source)
    name := (current.map AssetData.name).orElse
      (fun _ => previous.map AssetData.name) }

/-- The category adjustment sum of `compareSnapshots` (data-service.js:506-511):
accumulate `net` over all adjustment keys that start with `catId + "_"`. -/
def catAdjustment (adjustments : JsMap Adjustment) (catId : String) : ℚ :=
  adjustments.foldl
    (fun sum kv => if jsStartsWith kv.1 (catId ++ "_") then sum + kv.2.net else sum) 0

/-- The body of the per-category `allCatIds.forEach` loop
(data-service.js:501-517). -/
def compareCategory (currentSnapshot : Snapshot) (previousSnapshot : Option Snapshot)
    (adjustments : JsMap Adjustment) (catId : String) : DeltaInfo :=
  let currentCat := currentSnapshot.categories.get catId
  let previousCat := previousSnapshot.bind (fun p => p.categories.get catId)
  let currentTotal := (currentCat.map CatData.total).getD 0
  let previousTotal := (previousCat.map CatData.total).getD 0
  calculateDelta currentTotal previousTotal (catAdjustment adjustments catId)

/-- Model of `compareSnapshots` (data-service.js:452-528). -/
def compareSnapshots (currentSnapshot : Snapshot) (previousSnapshot : Option Snapshot)
    (adjustments : JsMap Adjustment) : Comparison :=
  let allAssetKeys := jsDedup (currentSnapshot.assetMap.keys ++
    ((previousSnapshot.map (fun p => p.assetMap.keys)).getD []))
  let assets := allAssetKeys.foldl
    (fun m key =>
      JsMap.set m key (compareAsset currentSnapshot previousSnapshot adjustments key))
    ([] : JsMap AssetComparison)
  let allCatIds := jsDedup (currentSnapshot.categories.keys ++
    ((previousSnapshot.map (fun p => p.categories.keys)).getD []))
  let categories := allCatIds.foldl
    (fun m catId =>
      JsMap.set m catId (compareCategory currentSnapshot previousSnapshot adjustments catId))
    ([] : JsMap DeltaInfo)
  let totalAdjustment := adjustments.foldl (fun sum kv => sum + kv.2.net) 0
  { portfolio := calculateDelta currentSnapshot.total
      ((previousSnapshot.map Snapshot.total).getD 0) totalAdjustment
    categories := categories
    assets := assets }

/-- Result record of `calculatePerformance` (data-service.js:1030-1038). -/
structure Performance where
  startBalance : ℚ
  endBalance : ℚ
  totalDeposits : ℚ
  totalWithdraws : ℚ
  netFlow : ℚ
  profit : ℚ
  yieldPercent : ℚ
deriving DecidableEq

/-- The deposit-summing `transfers.forEach` of `calculatePerformance`
(data-service.js:1003-1009). -/
def depositsSum (ts : List Transfer) : ℚ :=
  ts.foldl (fun s t => match t with | .deposit _ _ _ a => s + a | _ => s) 0

def withdrawsSum (ts : List Transfer) : ℚ :=
  ts.foldl (fun s t => match t with | .withdraw _ _ _ a => s + a | _ => s) 0

/-- Model of `calculatePerformance` (data-service.js:983-1039). -/
def calculatePerformance (startBalance endBalance : ℚ)
    (transfers : Option (List Transfer)) (isFirstMonth : Bool) : Performance :=
  if isFirstMonth then
    { startBalance := 0, endBalance := endBalance, totalDeposits := endBalance,
      totalWithdraws := 0, netFlow := endBalance, profit := 0, yieldPercent := 0 }
  else
    let totalDeposits := (transfers.map depositsSum).getD 0
    let totalWithdraws := (transfers.map withdrawsSum).getD 0
    let netFlow := totalDeposits - totalWithdraws
    let profit := endBalance - (startBalance + netFlow)
    let investedCapital := startBalance + totalDeposits
    let yieldPercent :=
      if investedCapital > 1/100 then profit / investedCapital * 100
      else if profit > 0 then 100
      else 0
    { startBalance := startBalance, endBalance := endBalance,
      totalDeposits := totalDeposits, totalWithdraws := totalWithdraws,
      netFlow := netFlow, profit := profit, yieldPercent := yieldPercent }

/-- Model of `calculateYTD` (data-service.js:667-673): compounded year-to-date return. -/
def calculateYTD (yields : List ℚ) : ℚ :=
  (yields.foldl (fun compounded r => compounded * (1 + r)) 1) - 1

/-- Model of `calculateProjectedAnnual` (data-service.js:678-687).  `Math.pow` on a
positive base is real exponentiation, modelled by `Real.rpow`; the function is
therefore stated over `ℝ`. -/
noncomputable def calculateProjectedAnnual (ytd monthsPassed : ℝ) : ℝ :=
  if monthsPassed ≤ 0 then 0
  else
    let exponent := 12 / monthsPassed
    let base := 1 + ytd
    if base ≤ 0 then -1
    else base ^ exponent - 1

/-! Part: Spec-side accessors and concrete documents used by the claims -/

/-- Spec-side reading of "the sum of the values of all asset entries in D". -/
def assetValuesSum (pd : PortfolioDoc) : ℚ :=
  (pd.map (fun c => (c.items.map Item.val).sum)).sum

/-- Spec-side reading of "the sum of all category totals" of a snapshot. -/
def categoryTotalsSum (snap : Snapshot) : ℚ :=
  (snap.categories.map (fun kv => kv.2.total)).sum

/-- The previous-snapshot entry consulted for an asset key
(`previousSnapshot?.assetMap?.[key]`). -/
def assetPreviousEntry (ps : Option Snapshot) (k : String) : Option AssetData :=
  ps.bind (fun p => p.assetMap.get k)

/-- Value `current?.val || 0` for an asset key of the current snapshot. -/
def assetCurrentVal (cs : Snapshot) (k : String) : ℚ :=
  ((cs.assetMap.get k).map AssetData.val).getD 0

/-- Value `previous?.val || 0` for an asset key of the previous snapshot. -/
def assetPreviousVal (ps : Option Snapshot) (k : String) : ℚ :=
  ((assetPreviousEntry ps k).map AssetData.val).getD 0

/-- A document with two categories sharing the id `"a"`. -/
def dupCatDoc : PortfolioDoc :=
  [⟨"a", "A", "red", [Item.raw "x" "s" 1]⟩, ⟨"a", "A", "red", [Item.raw "y" "s" 2]⟩]

/-- A document with two distinct category ids. -/
def twoCatDoc : PortfolioDoc :=
  [⟨"a", "A", "red", [Item.raw "x" "s" 1]⟩, ⟨"b", "B", "blue", [Item.raw "y" "s" 2]⟩]

/-- One-asset document used to exhibit in-place mutation by the merger. -/
def oneAssetDoc : PortfolioDoc := [⟨"a", "A", "red", [Item.raw "x" "s" 100]⟩]

def oneMoveList : List Transfer := [Transfer.move "a" "s" "x" "b" "t" "y" 30]

/-- Previous month: the asset is worth 500. -/
def ghostPrevSnap : Snapshot :=
  buildSnapshot (some [⟨"cat", "Cat", "red", [Item.raw "x" "s" 500]⟩])

/-- Current month: the same asset is worth 0. -/
def ghostCurSnap : Snapshot :=
  buildSnapshot (some [⟨"cat", "Cat", "red", [Item.raw "x" "s" 0]⟩])

/-- The comparison record produced for the ghost asset. -/
def ghostRec : AssetComparison :=
  { delta := -500, percent := -100, adjustedStart := 500, previousVal := 500,
    currentVal := 0, status := Status.ghost, categoryId := some "cat",
    source := some "s", name := some "x" }

def c8Snap : Snapshot :=
  buildSnapshot (some [⟨"cat", "Cat", "red", [Item.raw "x" "s" 400]⟩])

/-- Adjustments: one key under category `cat`, one under another category. -/
def c8Adjs : JsMap Adjustment :=
  [("cat_s_x", ⟨100, 0, 100⟩), ("other_s_y", ⟨7, 0, 7⟩)]

def c10Transfers : List Transfer :=
  [Transfer.deposit "a" "s" "x" 200, Transfer.withdraw "a" "s" "x" 50]

/-- Spec-side list of the amounts of the `deposit` transfers of a list. -/
def depositAmounts (ts : List Transfer) : List ℚ :=
  ts.filterMap (fun t => match t with | Transfer.deposit _ _ _ x => some x | _ => none)

/-- Spec-side list of the amounts of the `withdraw` transfers of a list. -/
def withdrawAmounts (ts : List Transfer) : List ℚ :=
  ts.filterMap (fun t => match t with | Transfer.withdraw _ _ _ x => some x | _ => none)

/-- The category-record half of `buildCatFold` on its own (it never reads the
asset map being threaded alongside). -/
def buildCatData (catId : String) (items : List Item) (cd : CatData) : CatData :=
  match items with
  | [] => cd
  | item :: rest =>
    let a := mkAssetData catId item
    buildCatData catId rest
      { cd with items := cd.items.set a.key a, total := cd.total + item.val }

/-- The category record `buildSnapshot` produces for one document category. -/
def catDataOf (cat : Category) : CatData :=
  buildCatData cat.id cat.items
    { id := cat.id, title := cat.title, color := cat.color, total := 0, items := [] }

/-! Part: Association-map lemmas -/

theorem JsMap.get_set_self {α : Type} (m : JsMap α) (k : String) (v : α) :
    (m.set k v).get k = some v := by
  induction m with
  | nil => simp [JsMap.set, JsMap.get]
  | cons kv rest ih =>
    by_cases h : kv.1 = k
    · simp [JsMap.set, JsMap.get, h]
    · simp [JsMap.set, JsMap.get, h, ih]

theorem JsMap.get_set_ne {α : Type} (m : JsMap α) {k k' : String} (v : α)
    (h : k' ≠ k) : (m.set k v).get k' = m.get k' := by
  induction m with
  | nil => simp [JsMap.set, JsMap.get, Ne.symm h]
  | cons kv rest ih =>
    simp only [JsMap.set]
    by_cases hk : kv.1 = k
    · rw [if_pos hk]
      simp only [JsMap.get]
      rw [if_neg (Ne.symm h), if_neg (show kv.1 ≠ k' by rw [hk]; exact Ne.symm h)]
    · rw [if_neg hk]
      simp only [JsMap.get, ih]

theorem JsMap.get_set_cases {α : Type} {m : JsMap α} {k k' : String} {v a : α}
    (h : (m.set k v).get k' = some a) :
    (k' = k ∧ a = v) ∨ (k' ≠ k ∧ m.get k' = some a) := by
  by_cases hk : k' = k
  · subst hk
    rw [JsMap.get_set_self] at h
    exact Or.inl ⟨rfl, (Option.some_injective _ h).symm⟩
  · rw [JsMap.get_set_ne m v hk] at h
    exact Or.inr ⟨hk, h⟩

theorem JsMap.get_foldl_set {α : Type} (f : String → α) (ks : List String)
    (m : JsMap α) (k : String) :
    (ks.foldl (fun acc key => JsMap.set acc key (f key)) m).get k =
      if k ∈ ks then some (f k) else m.get k := by
  induction ks generalizing m with
  | nil => simp
  | cons key rest ih =>
    simp only [List.foldl_cons, ih (JsMap.set m key (f key)), List.mem_cons]
    by_cases hr : k ∈ rest
    · simp [hr]
    · by_cases hk : k = key
      · subst hk
        simp [hr, JsMap.get_set_self]
      · simp [hr, hk, JsMap.get_set_ne m (f key) hk]

/-! Part: C2, C5, C7, C9 -/

/-- C2: with the first-month flag set, `calculatePerformance` forces
`profit = 0`, `yieldPercent = 0`, reports `startBalance = 0`, and treats the
entire end balance as a deposit (`totalDeposits = netFlow = endBalance`),
regardless of the start balance and transfer list passed in. -/
theorem calculatePerformance_first_month_spec (startBalance endBalance : ℚ)
    (transfers : Option (List Transfer)) :
    calculatePerformance startBalance endBalance transfers true =
      { startBalance := 0, endBalance := endBalance, totalDeposits := endBalance,
        totalWithdraws := 0, netFlow := endBalance, profit := 0, yieldPercent := 0 } :=
  rfl

/-- C5: `calculateDelta` returns `adjustedStart = previous + adjustment`,
`delta = current − adjustedStart`, and `percent = delta / adjustedStart × 100`
when `adjustedStart > 0`, else `0`; in particular an asset that was absent,
is now worth 300, and was funded by a 300 net deposit gets
`adjustedStart = 300` and `percent = 0`. -/
theorem calculateDelta_spec :
    (∀ c p a : ℚ, calculateDelta c p a =
      { delta := c - (p + a)
        percent := if p + a > 0 then (c - (p + a)) / (p + a) * 100 else 0
        adjustedStart := p + a, previousVal := p, currentVal := c }) ∧
    calculateDelta 300 0 300 =
      { delta := 0, percent := 0, adjustedStart := 300, previousVal := 0,
        currentVal := 300 } := by
  constructor
  · intro c p a
    simp only [calculateDelta]
    by_cases h : p + a > 0 <;> simp [h]
  · simp [calculateDelta]

/-- C7 counterexample: `mergeTransfers` does not leave the document it was
given unchanged.  The JS function mutates its first argument in place and
returns that very object, so the post-state of the source document is the
function's result; depositing 50 into the one-asset document changes it. -/
theorem mergeTransfers_mutates_input :
    mergeTransfers (some oneAssetDoc) (some [Transfer.deposit "a" "s" "x" 50]) ≠
      some oneAssetDoc := by
  simp [mergeTransfers, mergeStep, applyTransferOperation, updateCats, updateItems,
    applyToItem, oneAssetDoc, Item.raw]

/-- C7 amended: the merger leaves the document it was given unchanged exactly
in the degenerate cases — a `null`/empty transfer list or a missing/malformed
document; otherwise the returned document is the post-state of the very
document passed in (callers that need the original intact deep-copy first). -/
theorem mergeTransfers_identity_cases :
    (∀ pd : Option PortfolioDoc, mergeTransfers pd (some []) = pd) ∧
    (∀ pd : Option PortfolioDoc, mergeTransfers pd none = pd) ∧
    (∀ ts : Option (List Transfer), mergeTransfers none ts = none) := by
  refine ⟨fun pd => rfl, fun pd => rfl, fun ts => ?_⟩
  cases ts with
  | none => rfl
  | some l =>
    cases l with
    | nil => rfl
    | cons t rest => rfl

/-! Part: Sum lemmas for the performance calculator and the merger -/

theorem depositsSum_foldl (ts : List Transfer) :
    ∀ a : ℚ,
      ts.foldl (fun s t => match t with | Transfer.deposit _ _ _ x => s + x | _ => s) a =
        a + (depositAmounts ts).sum := by
  induction ts with
  | nil => intro a; simp [depositAmounts]
  | cons t rest ih =>
    intro a
    cases t with
    | deposit c s n x =>
      simp [depositAmounts, List.filterMap_cons, ih]
      ring
    | withdraw c s n x => simp [depositAmounts, List.filterMap_cons, ih]
    | move fc fs fn tc tsrc tn x => simp [depositAmounts, List.filterMap_cons, ih]

theorem withdrawsSum_foldl (ts : List Transfer) :
    ∀ a : ℚ,
      ts.foldl (fun s t => match t with | Transfer.withdraw _ _ _ x => s + x | _ => s) a =
        a + (withdrawAmounts ts).sum := by
  induction ts with
  | nil => intro a; simp [withdrawAmounts]
  | cons t rest ih =>
    intro a
    cases t with
    | deposit c s n x => simp [withdrawAmounts, List.filterMap_cons, ih]
    | withdraw c s n x =>
      simp [withdrawAmounts, List.filterMap_cons, ih]
      ring
    | move fc fs fn tc tsrc tn x => simp [withdrawAmounts, List.filterMap_cons, ih]

theorem depositsSum_eq (ts : List Transfer) : depositsSum ts = (depositAmounts ts).sum := by
  simpa using depositsSum_foldl ts 0

theorem withdrawsSum_eq (ts : List Transfer) :
    withdrawsSum ts = (withdrawAmounts ts).sum := by
  simpa using withdrawsSum_foldl ts 0

theorem foldl_item_val (items : List Item) :
    ∀ a : ℚ, items.foldl (fun sum item => sum + item.val) a = a + (items.map Item.val).sum := by
  induction items with
  | nil => intro a; simp
  | cons i rest ih => intro a; simp [ih]; ring

theorem calculateTotalBalance_eq (pd : PortfolioDoc) :
    calculateTotalBalance (some pd) = assetValuesSum pd := by
  show pd.foldl _ 0 = _
  have aux : ∀ (l : PortfolioDoc) (t : ℚ),
      l.foldl (fun total category =>
        total + category.items.foldl (fun sum item => sum + item.val) 0) t =
        t + assetValuesSum l := by
    intro l
    induction l with
    | nil => intro t; simp [assetValuesSum]
    | cons c rest ih =>
      intro t
      simp only [List.foldl_cons]
      rw [ih]
      simp [assetValuesSum, foldl_item_val]
      ring
  simpa using aux pd 0

theorem updateItems_sum (items : List Item) (source assetName : String) (a : ℚ) :
    ((updateItems items source assetName a).map Item.val).sum =
      (items.map Item.val).sum + a := by
  induction items with
  | nil => simp [updateItems, applyToItem, Item.raw]
  | cons i rest ih =>
    simp only [updateItems]
    by_cases h : i.name = assetName ∧ i.source = source
    · rw [if_pos h]
      simp [applyToItem]
      ring
    · rw [if_neg h]
      simp [ih]
      ring

theorem updateCats_sum (cats : PortfolioDoc) (cid source assetName : String) (a : ℚ) :
    assetValuesSum (updateCats cats cid source assetName a) = assetValuesSum cats + a := by
  induction cats with
  | nil => simp [updateCats, assetValuesSum, updateItems_sum]
  | cons c rest ih =>
    simp only [updateCats]
    by_cases h : c.id = cid
    · rw [if_pos h]
      simp [assetValuesSum, updateItems_sum]
      ring
    · rw [if_neg h]
      simp only [assetValuesSum, List.map_cons, List.sum_cons] at ih ⊢
      rw [ih]
      ring

theorem mergeStep_sum_move (pd : PortfolioDoc) (t : Transfer) (h : t.isMove = true) :
    assetValuesSum (mergeStep pd t) = assetValuesSum pd := by
  cases t with
  | move fc fs fn tc tsrc tn a =>
    simp [mergeStep, applyTransferOperation, updateCats_sum]
  | deposit c s n a => simp [Transfer.isMove] at h
  | withdraw c s n a => simp [Transfer.isMove] at h

theorem foldl_mergeStep_moves (ts : List Transfer) :
    ∀ pd : PortfolioDoc, (∀ t ∈ ts, t.isMove = true) →
      assetValuesSum (ts.foldl mergeStep pd) = assetValuesSum pd := by
  induction ts with
  | nil => intro pd _; rfl
  | cons t rest ih =>
    intro pd h
    simp only [List.foldl_cons]
    rw [ih (mergeStep pd t) (fun t' ht' => h t' (List.mem_cons_of_mem _ ht')),
      mergeStep_sum_move pd t (h t (List.mem_cons_self _ _))]

/-! Part: C3, C4, C10 -/

/-- C3: without the first-month flag, `calculatePerformance` returns
`netFlow = deposits − withdraws`, `profit = end − (start + netFlow)`, and
`yieldPercent = profit / (start + deposits) × 100` when
`start + deposits > 0.01`, `100` when the invested capital is ≤ 0.01 but the
profit is positive, and `0` otherwise; in particular start 1000, deposits 200,
withdraws 50, end 1200 gives `netFlow = 150`, `profit = 50`, invested capital
1200 and `yieldPercent = 25/6 ≈ 4.17`. -/
theorem calculatePerformance_normal_spec :
    (∀ (s e : ℚ) (ts : List Transfer),
      calculatePerformance s e (some ts) false =
        { startBalance := s, endBalance := e
          totalDeposits := (depositAmounts ts).sum
          totalWithdraws := (withdrawAmounts ts).sum
          netFlow := (depositAmounts ts).sum - (withdrawAmounts ts).sum
          profit := e - (s + ((depositAmounts ts).sum - (withdrawAmounts ts).sum))
          yieldPercent :=
            if s + (depositAmounts ts).sum > 1/100 then
              (e - (s + ((depositAmounts ts).sum - (withdrawAmounts ts).sum))) /
                (s + (depositAmounts ts).sum) * 100
            else if e - (s + ((depositAmounts ts).sum - (withdrawAmounts ts).sum)) > 0 then 100
            else 0 }) ∧
    calculatePerformance 1000 1200
        (some [Transfer.deposit "a" "b" "c" 200, Transfer.withdraw "a" "b" "c" 50]) false =
      { startBalance := 1000, endBalance := 1200, totalDeposits := 200,
        totalWithdraws := 50, netFlow := 150, profit := 50, yieldPercent := 25/6 } := by
  constructor
  · intro s e ts
    simp [calculatePerformance, depositsSum_eq, withdrawsSum_eq]
  · simp [calculatePerformance, depositsSum, withdrawsSum]
    norm_num

/-- C4: a `move` is balance-neutral: applying its two halves leaves the
portfolio total unchanged, and merging any list of `move` transfers into any
document (present or missing) leaves `calculateTotalBalance` unchanged. -/
theorem move_transfers_preserve_total :
    (∀ (pd : PortfolioDoc) (fc fs fn tc tsrc tn : String) (a : ℚ),
      calculateTotalBalance (some (applyTransferOperation
          (applyTransferOperation pd fc fs fn (-a)) tc tsrc tn a)) =
        calculateTotalBalance (some pd)) ∧
    (∀ (pd : Option PortfolioDoc) (ts : List Transfer),
      (∀ t ∈ ts, t.isMove = true) →
      calculateTotalBalance (mergeTransfers pd (some ts)) = calculateTotalBalance pd) := by
  constructor
  · intro pd fc fs fn tc tsrc tn a
    simp [calculateTotalBalance_eq, applyTransferOperation, updateCats_sum]
  · intro pd ts h
    by_cases hts : ts = []
    · simp [mergeTransfers, hts]
    · cases pd with
      | none => simp [mergeTransfers, hts]
      | some portfolio =>
        simp only [mergeTransfers, if_neg hts]
        rw [calculateTotalBalance_eq, calculateTotalBalance_eq,
          foldl_mergeStep_moves ts portfolio h]

/-- Witness for C4: moving 30 out of the only asset into a fresh category
leaves the total balance unchanged. -/
theorem move_transfers_preserve_total_witness :
    calculateTotalBalance (mergeTransfers (some oneAssetDoc) (some oneMoveList)) =
      calculateTotalBalance (some oneAssetDoc) :=
  move_transfers_preserve_total.2 (some oneAssetDoc) oneMoveList (by decide)

theorem addDeposit_preserves (m : JsMap Adjustment) (key : String) (amt : ℚ)
    (h : ∀ k a, m.get k = some a → a.net = a.deposits - a.withdraws) :
    ∀ k a, (addDeposit m key amt).get k = some a → a.net = a.deposits - a.withdraws := by
  intro k a hget
  simp only [addDeposit] at hget
  rcases JsMap.get_set_cases hget with ⟨hk, ha⟩ | ⟨hk, hm⟩
  · subst ha
    cases hcur : m.get key with
    | none => simp [hcur]
    | some c =>
      have hc := h key c hcur
      simp [hcur, hc]
      ring
  · exact h k a hm

theorem addWithdraw_preserves (m : JsMap Adjustment) (key : String) (amt : ℚ)
    (h : ∀ k a, m.get k = some a → a.net = a.deposits - a.withdraws) :
    ∀ k a, (addWithdraw m key amt).get k = some a → a.net = a.deposits - a.withdraws := by
  intro k a hget
  simp only [addWithdraw] at hget
  rcases JsMap.get_set_cases hget with ⟨hk, ha⟩ | ⟨hk, hm⟩
  · subst ha
    cases hcur : m.get key with
    | none => simp [hcur]
    | some c =>
      have hc := h key c hcur
      simp [hcur, hc]
      ring
  · exact h k a hm

theorem adjStep_preserves (m : JsMap Adjustment) (t : Transfer)
    (h : ∀ k a, m.get k = some a → a.net = a.deposits - a.withdraws) :
    ∀ k a, (adjStep m t).get k = some a → a.net = a.deposits - a.withdraws := by
  cases t with
  | deposit c s n x => exact addDeposit_preserves m _ x h
  | withdraw c s n x => exact addWithdraw_preserves m _ x h
  | move fc fs fn tc tsrc tn x =>
    exact addDeposit_preserves _ _ x (addWithdraw_preserves m _ x h)

theorem foldl_adjStep_invariant (ts : List Transfer) :
    ∀ m : JsMap Adjustment,
      (∀ k a, m.get k = some a → a.net = a.deposits - a.withdraws) →
      ∀ k a, (ts.foldl adjStep m).get k = some a → a.net = a.deposits - a.withdraws := by
  induction ts with
  | nil => intro m h; exact h
  | cons t rest ih =>
    intro m h
    exact ih (adjStep m t) (adjStep_preserves m t h)

/-- C10: `getAdjustmentsPerAsset` returns the empty map whenever either
argument is `null`/`undefined`, even for a non-empty transfer list; the
aggregation itself never reads the document (any two present documents give
the same result); and every record of the returned map satisfies
`net = deposits − withdraws`. -/
theorem getAdjustmentsPerAsset_spec :
    (∀ ts : List Transfer, getAdjustmentsPerAsset (some ts) none = []) ∧
    (∀ pd : Option PortfolioDoc, getAdjustmentsPerAsset none pd = []) ∧
    (∀ (ts : List Transfer) (pd pd' : PortfolioDoc),
      getAdjustmentsPerAsset (some ts) (some pd) =
        getAdjustmentsPerAsset (some ts) (some pd')) ∧
    (∀ (ts : List Transfer) (pd : PortfolioDoc) (k : String) (a : Adjustment),
      (getAdjustmentsPerAsset (some ts) (some pd)).get k = some a →
        a.net = a.deposits - a.withdraws) := by
  refine ⟨fun ts => rfl, fun pd => ?_, fun ts pd pd' => rfl, fun ts pd k a hget => ?_⟩
  · cases pd <;> rfl
  · exact foldl_adjStep_invariant ts [] (fun k' a' h' => by simp [JsMap.get] at h') k a hget

/-- Witness for C10: a 200 deposit and a 50 withdrawal on the same asset give
the record `{deposits 200, withdraws 50, net 150}`, and `150 = 200 − 50`. -/
theorem getAdjustmentsPerAsset_spec_witness :
    (getAdjustmentsPerAsset (some c10Transfers) (some [])).get "a_s_x" =
      some { deposits := 200, withdraws := 50, net := 150 } ∧
    (150 : ℚ) = 200 - 50 := by
  have hkey : getAssetKey "a" "s" "x" = "a_s_x" := rfl
  have hget : (getAdjustmentsPerAsset (some c10Transfers) (some [])).get "a_s_x" =
      some { deposits := 200, withdraws := 50, net := 150 } := by
    norm_num [getAdjustmentsPerAsset, c10Transfers, adjStep, addDeposit, addWithdraw,
      hkey, JsMap.set, JsMap.get]
  exact ⟨hget, getAdjustmentsPerAsset_spec.2.2.2 c10Transfers [] "a_s_x"
    { deposits := 200, withdraws := 50, net := 150 } hget⟩

/-- C9: for positive `monthsPassed`, `calculateProjectedAnnual` returns
`(1 + ytd) ^ (12 / monthsPassed) − 1` when `1 + ytd > 0` and is clamped to
exactly `−1` when `1 + ytd ≤ 0`; in particular
`calculateProjectedAnnual (−1.5) 6 = −1`. -/
theorem calculateProjectedAnnual_spec :
    (∀ ytd monthsPassed : ℝ, 0 < monthsPassed →
      calculateProjectedAnnual ytd monthsPassed =
        if 1 + ytd ≤ 0 then -1 else (1 + ytd) ^ (12 / monthsPassed) - 1) ∧
    calculateProjectedAnnual (-1.5) 6 = -1 := by
  constructor
  · intro ytd monthsPassed h
    simp only [calculateProjectedAnnual, if_neg (not_le.mpr h)]
  · simp only [calculateProjectedAnnual]
    norm_num

/-- Witness for C9 at `ytd = −1.5`, `monthsPassed = 6`. -/
theorem calculateProjectedAnnual_spec_witness :
    (0 : ℝ) < 6 ∧ calculateProjectedAnnual (-1.5) 6 = -1 :=
  ⟨by norm_num, by
    rw [calculateProjectedAnnual_spec.1 (-1.5) 6 (by norm_num)]
    norm_num⟩

/-! Part: Comparator lemmas -/

theorem compareSnapshots_assets_get (cs : Snapshot) (ps : Option Snapshot)
    (adjs : JsMap Adjustment) {k : String} {r : AssetComparison}
    (h : (compareSnapshots cs ps adjs).assets.get k = some r) :
    r = compareAsset cs ps adjs k := by
  simp only [compareSnapshots] at h
  rw [JsMap.get_foldl_set (compareAsset cs ps adjs)] at h
  split at h
  · exact (Option.some_inj.mp h).symm
  · simp [JsMap.get] at h

theorem compareSnapshots_categories_get (cs : Snapshot) (ps : Option Snapshot)
    (adjs : JsMap Adjustment) {cid : String} {r : DeltaInfo}
    (h : (compareSnapshots cs ps adjs).categories.get cid = some r) :
    r = compareCategory cs ps adjs cid := by
  simp only [compareSnapshots] at h
  rw [JsMap.get_foldl_set (compareCategory cs ps adjs)] at h
  split at h
  · exact (Option.some_inj.mp h).symm
  · simp [JsMap.get] at h

theorem foldl_net_filter (q : String × Adjustment → Bool) (l : JsMap Adjustment) :
    ∀ a : ℚ,
      l.foldl (fun sum kv => if q kv then sum + kv.2.net else sum) a =
        a + ((l.filter q).map (fun kv => kv.2.net)).sum := by
  induction l with
  | nil => intro a; simp
  | cons kv rest ih =>
    intro a
    by_cases h : q kv = true
    · simp [List.filter_cons, h, ih]
      ring
    · simp [List.filter_cons, h, ih]

theorem jsStartsWith_eq_decide (s p : String) :
    jsStartsWith s p = decide (p.data <+: s.data) := by
  rw [jsStartsWith]
  by_cases h : p.data <+: s.data
  · rw [decide_eq_true h]
    exact List.isPrefixOf_iff_prefix.mpr h
  · rw [decide_eq_false h]
    exact Bool.eq_false_iff.mpr (fun hb => h <| List.isPrefixOf_iff_prefix.mp hb)

theorem catAdjustment_eq (adjs : JsMap Adjustment) (cid : String) :
    catAdjustment adjs cid =
      ((adjs.filter (fun kv => decide ((cid ++ "_").data <+: kv.1.data))).map
        (fun kv => kv.2.net)).sum := by
  have hq : (fun kv : String × Adjustment => jsStartsWith kv.1 (cid ++ "_")) =
      fun kv => decide ((cid ++ "_").data <+: kv.1.data) :=
    funext fun kv => jsStartsWith_eq_decide kv.1 (cid ++ "_")
  have := foldl_net_filter (fun kv => jsStartsWith kv.1 (cid ++ "_")) adjs 0
  rw [catAdjustment, this, hq]
  simp

/-! Part: C6, C8 -/

/-- C6: every asset key that receives a comparison record receives exactly one
status, assigned with the precedence `new` (current > 0 and no previous
entry), else `ghost` (current = 0 and previous > 0), else `hidden` (both 0),
else `normal`; and concretely an asset previously worth 500, now 0, with no
transfers is `ghost` with `delta = −500` and `percent = −100`. -/
theorem compareSnapshots_status_spec :
    (∀ (cs : Snapshot) (ps : Option Snapshot) (adjs : JsMap Adjustment)
        (k : String) (r : AssetComparison),
      (compareSnapshots cs ps adjs).assets.get k = some r →
      (r.status = Status.new ↔
        assetCurrentVal cs k > 0 ∧ assetPreviousEntry ps k = none) ∧
      (r.status = Status.ghost ↔
        ¬(assetCurrentVal cs k > 0 ∧ assetPreviousEntry ps k = none) ∧
        assetCurrentVal cs k = 0 ∧ assetPreviousVal ps k > 0) ∧
      (r.status = Status.hidden ↔
        ¬(assetCurrentVal cs k > 0 ∧ assetPreviousEntry ps k = none) ∧
        ¬(assetCurrentVal cs k = 0 ∧ assetPreviousVal ps k > 0) ∧
        assetCurrentVal cs k = 0 ∧ assetPreviousVal ps k = 0) ∧
      (r.status = Status.normal ↔
        ¬(assetCurrentVal cs k > 0 ∧ assetPreviousEntry ps k = none) ∧
        ¬(assetCurrentVal cs k = 0 ∧ assetPreviousVal ps k > 0) ∧
        ¬(assetCurrentVal cs k = 0 ∧ assetPreviousVal ps k = 0))) ∧
    (compareSnapshots ghostCurSnap (some ghostPrevSnap) []).assets.get "cat_s_x" =
      some ghostRec := by
  constructor
  · intro cs ps adjs k r h
    have hr := compareSnapshots_assets_get cs ps adjs h
    subst hr
    simp only [compareAsset, assetCurrentVal, assetPreviousEntry, assetPreviousVal]
    split_ifs with h1 h2 h3
    · exact ⟨iff_of_true rfl h1,
        iff_of_false (fun hc => nomatch hc) (fun hc => hc.1 h1),
        iff_of_false (fun hc => nomatch hc) (fun hc => hc.1 h1),
        iff_of_false (fun hc => nomatch hc) (fun hc => hc.1 h1)⟩
    · exact ⟨iff_of_false (fun hc => nomatch hc) h1,
        iff_of_true rfl ⟨h1, h2⟩,
        iff_of_false (fun hc => nomatch hc) (fun hc => hc.2.1 h2),
        iff_of_false (fun hc => nomatch hc) (fun hc => hc.2.1 h2)⟩
    · exact ⟨iff_of_false (fun hc => nomatch hc) h1,
        iff_of_false (fun hc => nomatch hc) (fun hc => h2 hc.2),
        iff_of_true rfl ⟨h1, h2, h3⟩,
        iff_of_false (fun hc => nomatch hc) (fun hc => hc.2.2 h3)⟩
    · exact ⟨iff_of_false (fun hc => nomatch hc) h1,
        iff_of_false (fun hc => nomatch hc) (fun hc => h2 hc.2),
        iff_of_false (fun hc => nomatch hc) (fun hc => h3 hc.2.2),
        iff_of_true rfl ⟨h1, h2, h3⟩⟩
  · have hkey : getAssetKey "cat" "s" "x" = "cat_s_x" := rfl
    simp [ghostCurSnap, ghostPrevSnap, ghostRec, buildSnapshot, snapStep, buildCatFold,
      mkAssetData, hkey, emptySnapshot, JsMap.set, JsMap.get, JsMap.keys, jsDedup,
      jsDedupAux, compareSnapshots, compareAsset, calculateDelta, Item.raw]

/-- Witness for C6 at the concrete ghost scenario. -/
theorem compareSnapshots_status_spec_witness :
    (compareSnapshots ghostCurSnap (some ghostPrevSnap) []).assets.get "cat_s_x" =
      some ghostRec ∧
    (ghostRec.status = Status.ghost ↔
      ¬(assetCurrentVal ghostCurSnap "cat_s_x" > 0 ∧
          assetPreviousEntry (some ghostPrevSnap) "cat_s_x" = none) ∧
      assetCurrentVal ghostCurSnap "cat_s_x" = 0 ∧
      assetPreviousVal (some ghostPrevSnap) "cat_s_x" > 0) :=
  ⟨compareSnapshots_status_spec.2,
    (compareSnapshots_status_spec.1 ghostCurSnap (some ghostPrevSnap) [] "cat_s_x"
      ghostRec compareSnapshots_status_spec.2).2.1⟩

/-- C8: the adjustment a category-level comparison record absorbs into its
adjusted start is the sum of the `net` adjustments of exactly those asset keys
whose key string starts with the category identifier followed by `_` (a string
prefix match on the composite keys). -/
theorem compareSnapshots_category_adjustment_spec :
    ∀ (cs : Snapshot) (ps : Option Snapshot) (adjs : JsMap Adjustment)
      (cid : String) (r : DeltaInfo),
      (compareSnapshots cs ps adjs).categories.get cid = some r →
      r.adjustedStart - r.previousVal =
        ((adjs.filter (fun kv => decide ((cid ++ "_").data <+: kv.1.data))).map
          (fun kv => kv.2.net)).sum := by
  intro cs ps adjs cid r h
  have hr := compareSnapshots_categories_get cs ps adjs h
  subst hr
  simp only [compareCategory, calculateDelta]
  rw [catAdjustment_eq]
  ring

/-- Witness for C8: with adjustments on keys `cat_s_x` (net 100) and
`other_s_y` (net 7), category `cat` absorbs exactly 100. -/
theorem compareSnapshots_category_adjustment_spec_witness :
    (compareSnapshots c8Snap none c8Adjs).categories.get "cat" =
      some { delta := 300, percent := 300, adjustedStart := 100, previousVal := 0,
             currentVal := 400 } ∧
    ({ delta := 300, percent := 300, adjustedStart := 100, previousVal := 0,
       currentVal := 400 } : DeltaInfo).adjustedStart -
      ({ delta := 300, percent := 300, adjustedStart := 100, previousVal := 0,
         currentVal := 400 } : DeltaInfo).previousVal =
        ((c8Adjs.filter (fun kv => decide (("cat" ++ "_").data <+: kv.1.data))).map
          (fun kv => kv.2.net)).sum := by
  have hget : (compareSnapshots c8Snap none c8Adjs).categories.get "cat" =
      some { delta := 300, percent := 300, adjustedStart := 100, previousVal := 0,
             currentVal := 400 } := by
    have happ : ("cat" ++ "_" : String) = "cat_" := rfl
    have hs1 : jsStartsWith "cat_s_x" "cat_" = true := rfl
    have hs2 : jsStartsWith "other_s_y" "cat_" = false := rfl
    norm_num [c8Snap, c8Adjs, buildSnapshot, snapStep, buildCatFold, mkAssetData,
      getAssetKey, jsToLower, collapseWsAux, emptySnapshot, JsMap.set, JsMap.get,
      JsMap.keys, jsDedup, jsDedupAux, compareSnapshots, compareCategory,
      catAdjustment, calculateDelta, Item.raw, happ, hs1, hs2]
  exact ⟨hget,
    compareSnapshots_category_adjustment_spec c8Snap none c8Adjs "cat" _ hget⟩

/-! Part: Snapshot-builder lemmas and C1 -/

theorem buildCatFold_fst (catId : String) (items : List Item) :
    ∀ (cd : CatData) (am : JsMap AssetData),
      (buildCatFold catId items cd am).1 = buildCatData catId items cd := by
  induction items with
  | nil => intro cd am; rfl
  | cons item rest ih =>
    intro cd am
    simp only [buildCatFold, buildCatData]
    exact ih _ _

theorem buildCatData_total (catId : String) (items : List Item) :
    ∀ cd : CatData,
      (buildCatData catId items cd).total = cd.total + (items.map Item.val).sum := by
  induction items with
  | nil => intro cd; simp [buildCatData]
  | cons item rest ih =>
    intro cd
    simp only [buildCatData]
    rw [ih]
    simp
    ring

theorem snapStep_total (s : Snapshot) (cat : Category) :
    (snapStep s cat).total = s.total + (catDataOf cat).total := by
  simp only [snapStep, buildCatFold_fst, catDataOf]

theorem snapStep_categories (s : Snapshot) (cat : Category) :
    (snapStep s cat).categories = s.categories.set cat.id (catDataOf cat) := by
  simp only [snapStep, buildCatFold_fst, catDataOf]

theorem catDataOf_total (cat : Category) :
    (catDataOf cat).total = (cat.items.map Item.val).sum := by
  simp [catDataOf, buildCatData_total]

theorem foldl_snapStep_total (pd : PortfolioDoc) :
    ∀ s : Snapshot, (pd.foldl snapStep s).total = s.total + assetValuesSum pd := by
  induction pd with
  | nil => intro s; simp [assetValuesSum]
  | cons cat rest ih =>
    intro s
    simp only [List.foldl_cons]
    rw [ih, snapStep_total, catDataOf_total]
    simp only [assetValuesSum, List.map_cons, List.sum_cons]
    ring

theorem JsMap.set_eq_append {α : Type} (m : JsMap α) (k : String) (v : α)
    (h : m.get k = none) : m.set k v = m ++ [(k, v)] := by
  induction m with
  | nil => rfl
  | cons kv rest ih =>
    simp only [JsMap.get] at h
    by_cases hk : kv.1 = k
    · rw [if_pos hk] at h
      exact absurd h (by simp)
    · rw [if_neg hk] at h
      simp [JsMap.set, hk, ih h]

theorem foldl_snapStep_categories (pd : PortfolioDoc) :
    ∀ s : Snapshot, (pd.map Category.id).Nodup →
      (∀ c ∈ pd, s.categories.get c.id = none) →
      (pd.foldl snapStep s).categories =
        s.categories ++ pd.map (fun c => (c.id, catDataOf c)) := by
  induction pd with
  | nil => intro s _ _; simp
  | cons cat rest ih =>
    intro s hnd h
    rw [List.map_cons, List.nodup_cons] at hnd
    obtain ⟨hhead, hnd'⟩ := hnd
    have h2 : ∀ c ∈ rest, (snapStep s cat).categories.get c.id = none := by
      intro c hc
      rw [snapStep_categories]
      have hne : c.id ≠ cat.id :=
        fun he => hhead (he ▸ List.mem_map_of_mem Category.id hc)
      rw [JsMap.get_set_ne _ _ hne]
      exact h c (List.mem_cons_of_mem _ hc)
    simp only [List.foldl_cons]
    rw [ih (snapStep s cat) hnd' h2, snapStep_categories,
      JsMap.set_eq_append _ _ _ (h cat (List.mem_cons_self _ _))]
    simp

/-- C1 counterexample: for a document whose two categories share the id
`"a"`, the snapshot's categories map keeps only the last record (JS object
assignment overwrites), so the sum of the snapshot's category totals (2) is
not the snapshot total (3): the claim fails for arbitrary documents. -/
theorem buildSnapshot_dup_category_counterexample :
    (buildSnapshot (some dupCatDoc)).total ≠
      categoryTotalsSum (buildSnapshot (some dupCatDoc)) := by
  simp [dupCatDoc, buildSnapshot, snapStep, buildCatFold, mkAssetData, emptySnapshot,
    JsMap.set, JsMap.get, categoryTotalsSum, Item.raw, getAssetKey, jsToLower,
    collapseWsAux]

/-- C1 amended: the snapshot total always equals the sum of the values of all
asset entries of the document, and it equals the sum of the snapshot's
category totals provided the document's category identifiers are pairwise
distinct; a missing or malformed document yields the all-zero snapshot with
empty category and asset maps. -/
theorem buildSnapshot_total_spec :
    (∀ pd : PortfolioDoc, (buildSnapshot (some pd)).total = assetValuesSum pd) ∧
    (∀ pd : PortfolioDoc, (pd.map Category.id).Nodup →
      categoryTotalsSum (buildSnapshot (some pd)) = (buildSnapshot (some pd)).total) ∧
    buildSnapshot none = { total := 0, categories := [], assetMap := [] } := by
  have htotal : ∀ pd : PortfolioDoc,
      (buildSnapshot (some pd)).total = assetValuesSum pd := by
    intro pd
    show (pd.foldl snapStep emptySnapshot).total = _
    rw [foldl_snapStep_total]
    simp [emptySnapshot]
  refine ⟨htotal, ?_, rfl⟩
  intro pd hnd
  show categoryTotalsSum (pd.foldl snapStep emptySnapshot) = _
  rw [htotal pd]
  simp only [categoryTotalsSum]
  rw [foldl_snapStep_categories pd emptySnapshot hnd (fun c _ => rfl)]
  simp [emptySnapshot, List.map_map, Function.comp_def, catDataOf_total, assetValuesSum]

/-- Witness for C1: a document with the two distinct category ids `a`, `b`. -/
theorem buildSnapshot_total_spec_witness :
    (twoCatDoc.map Category.id).Nodup ∧
    categoryTotalsSum (buildSnapshot (some twoCatDoc)) =
      (buildSnapshot (some twoCatDoc)).total :=
  ⟨by decide, buildSnapshot_total_spec.2.1 twoCatDoc (by decide)⟩

end FinanceWeb
